import Mathlib

/-!
Verification of the messari/cookbooks algotrade-sentiment pipeline
(`examples/algotrade_sentiment/01_fetch_data.py` and
`examples/algotrade_sentiment/02_metrics_and_charting.py`).

The two scripts are shallowly embedded here:
* pandas Series/DataFrame columns become Lean `List`s of typed records;
* float64 values that may be NaN or ±infinity become the type `FV`
  (finite rationals plus `nan`, `pinf`, `ninf`, with IEEE-style
  arithmetic on the operations the scripts use);
* the async fetchers become deterministic functions of a response
  oracle, returning `Except` (an exception aborts the batch);
* the semaphore/sleep concurrency structure of the fetchers becomes an
  explicit labelled transition system (`Sched`, `SchedStep`).
-/

namespace Algotrade

/-!
Rational arithmetic through `mkRat`. The standard `Rat.add`,
`Rat.sub`, `Rat.mul` and `Rat.inv` are `@[irreducible]`, which blocks
kernel evaluation; these equal the standard operations
(`qadd_eq_add`, `qsub_eq_sub`, `qmul_eq_mul`, `qdiv_eq_div`) but stay
kernel-computable.
-/

/-- Kernel-computable rational addition; equals `a + b`. -/
def qadd (a b : ℚ) : ℚ :=
  mkRat (a.num * (b.den : ℤ) + b.num * (a.den : ℤ)) (a.den * b.den)

/-- Kernel-computable rational subtraction; equals `a - b`. -/
def qsub (a b : ℚ) : ℚ :=
  mkRat (a.num * (b.den : ℤ) - b.num * (a.den : ℤ)) (a.den * b.den)

/-- Kernel-computable rational multiplication; equals `a * b`. -/
def qmul (a b : ℚ) : ℚ :=
  mkRat (a.num * b.num) (a.den * b.den)

/-- Kernel-computable rational division; equals `a / b`. -/
def qdiv (a b : ℚ) : ℚ :=
  if (a.den : ℤ) * b.num < 0 then
    mkRat (-(a.num * (b.den : ℤ))) ((a.den : ℤ) * b.num).natAbs
  else mkRat (a.num * (b.den : ℤ)) ((a.den : ℤ) * b.num).natAbs

/-- Kernel-computable sum of a list of rationals; equals `List.sum`. -/
def qsum (xs : List ℚ) : ℚ := xs.foldr qadd 0

/-- A pandas float64 cell: a finite rational, NaN, or a signed infinity.
`nan` also stands for a missing value (pandas uses NaN for nulls). -/
inductive FV where
  | nan : FV
  | pinf : FV
  | ninf : FV
  | fin : ℚ → FV
deriving DecidableEq, Repr

namespace FV

/-- Is the value a NaN (pandas `isna`)? Infinities are *not* na. -/
def isNan : FV → Bool
  | nan => true
  | _ => false

/-- Is the value finite (neither NaN nor ±infinity)? -/
def isFin : FV → Bool
  | fin _ => true
  | _ => false

/-- IEEE-style subtraction on float cells. -/
def sub : FV → FV → FV
  | nan, _ => nan
  | _, nan => nan
  | pinf, pinf => nan
  | pinf, _ => pinf
  | ninf, ninf => nan
  | ninf, _ => ninf
  | fin _, pinf => ninf
  | fin _, ninf => pinf
  | fin a, fin b => fin (qsub a b)

/-- IEEE-style division on float cells: a zero denominator with a
nonzero finite numerator gives a signed infinity, `0/0` gives NaN. -/
def div : FV → FV → FV
  | nan, _ => nan
  | _, nan => nan
  | pinf, pinf => nan
  | pinf, ninf => nan
  | ninf, pinf => nan
  | ninf, ninf => nan
  | pinf, fin b => if 0 ≤ b then pinf else ninf
  | ninf, fin b => if 0 ≤ b then ninf else pinf
  | fin _, pinf => fin 0
  | fin _, ninf => fin 0
  | fin a, fin b =>
      if b = 0 then (if a = 0 then nan else if 0 < a then pinf else ninf)
      else fin (qdiv a b)

/-- IEEE-style multiplication on float cells. -/
def mul : FV → FV → FV
  | nan, _ => nan
  | _, nan => nan
  | pinf, pinf => pinf
  | pinf, ninf => ninf
  | ninf, pinf => ninf
  | ninf, ninf => pinf
  | pinf, fin b => if b = 0 then nan else if 0 < b then pinf else ninf
  | ninf, fin b => if b = 0 then nan else if 0 < b then ninf else pinf
  | fin a, pinf => if a = 0 then nan else if 0 < a then pinf else ninf
  | fin a, ninf => if a = 0 then nan else if 0 < a then ninf else pinf
  | fin a, fin b => fin (qmul a b)

/-- The pandas comparison `x > 0` (False on NaN, True on +infinity). -/
def pos : FV → Bool
  | pinf => true
  | fin a => decide (0 < a)
  | _ => false

/-- A comparison used only for the final `sort_values`: a Boolean
less-or-equal that orders finite values by their rational and places
non-finite values first. -/
def leB : FV → FV → Bool
  | fin a, fin b => decide (a ≤ b)
  | fin _, _ => false
  | _, _ => true

end FV

/-!
## Date derivation (01_fetch_data.py, lines 80 and 149)

`pd.to_datetime(x, unit="ms").dt.date` interprets `x` as milliseconds
since the Unix epoch in UTC and truncates to the calendar day; we
represent a calendar date by its (possibly negative) day number since
the epoch, so the truncation is a floor division.
-/

/-- UTC calendar day of a millisecond epoch instant
(`pd.to_datetime(ms, unit="ms").dt.date`, line 80 of 01_fetch_data.py). -/
def dateOfMillis (ms : ℤ) : ℤ := Int.fdiv ms 86400000

/-- UTC calendar day of a second epoch instant
(`pd.to_datetime(s, unit="s").dt.date`, line 149 of 01_fetch_data.py). -/
def dateOfSeconds (s : ℤ) : ℤ := Int.fdiv s 86400

/-!
## News aggregation (01_fetch_data.py, `process_news_data`)
-/

/-- An entry of a news item's `assets` list: `{id, name}`. -/
structure AssetRef where
  id : String
  name : String
deriving DecidableEq, Repr

/-- A raw news record as returned in the news feed's `data` array.
`title`/`description`/`url` may be null (pandas NaN); `assets` may be
null (`none`) or a possibly empty list. -/
structure RawNewsItem where
  publishTimeMillis : ℤ
  title : Option String
  description : Option String
  url : Option String
  assets : Option (List AssetRef)
deriving DecidableEq, Repr

/-- One exploded (item, asset) pair after `explode("assets")` plus the
`asset_id`/`asset_name` extraction and the `fillna("None")` coercion of
the three text columns. -/
structure ExplodedRow where
  asset_id : String
  asset_name : String
  date : ℤ
  title : String
  description : String
  url : String
deriving DecidableEq, Repr

/-- One aggregated row of the grouped news table (an AssetDailyNews). -/
structure AggRow where
  asset_id : String
  asset_name : String
  date : ℤ
  titles : List String
  descriptions : List String
  urls : List String
  count : ℕ
deriving DecidableEq, Repr

/-- pandas `explode` over a list column: each element yields a row; an
empty list yields a single row holding NaN (`none`). -/
def explodeAssets : List AssetRef → List (Option AssetRef)
  | [] => [none]
  | l => l.map some

/-- The grouping key of `groupby(["asset_id", "asset_name", "date"])`. -/
def keyOf (r : ExplodedRow) : String × String × ℤ :=
  (r.asset_id, r.asset_name, r.date)

/-- Lexicographic order on the character sequences of two strings
(String `<` unfolded to its character comparison). -/
def strLTb : List Char → List Char → Bool
  | [], [] => false
  | [], _ :: _ => true
  | _ :: _, [] => false
  | a :: as, b :: bs => if a = b then strLTb as bs else decide (a < b)

/-- Boolean lexicographic order on grouping keys (pandas `groupby`
emits its groups in ascending key order). -/
def keyLE (a b : String × String × ℤ) : Bool :=
  if a.1 ≠ b.1 then strLTb a.1.data b.1.data
  else if a.2.1 ≠ b.2.1 then strLTb a.2.1.data b.2.1.data
  else decide (a.2.2 ≤ b.2.2)

/-- First-occurrence deduplication (pandas `Series.unique`):
`seen` holds the values already emitted. -/
def uniqueFirstAux {α : Type} [DecidableEq α] (seen : List α) : List α → List α
  | [] => []
  | x :: xs =>
      if x ∈ seen then uniqueFirstAux seen xs
      else x :: uniqueFirstAux (x :: seen) xs

/-- First-occurrence deduplication (pandas `Series.unique`). -/
def uniqueFirst {α : Type} [DecidableEq α] (l : List α) : List α :=
  uniqueFirstAux [] l

/-- The rows of the exploded, asset-extracted, text-coerced news frame,
in document order: items with a null `assets` field are dropped, each
remaining item contributes one row per referenced asset (`none` marks
the NaN row pandas produces for an empty list, on which the `x["id"]`
extraction would fail). -/
def explodedPairs (items : List RawNewsItem) : List (RawNewsItem × Option AssetRef) :=
  (items.filter (fun it => it.assets.isSome)).flatMap
    (fun it => (explodeAssets (it.assets.getD [])).map (fun oa => (it, oa)))

/-- Builds one `ExplodedRow` from an (item, asset) pair; fails on the
NaN asset produced by exploding an empty list (the script's
`x["id"]` lambda raises there). -/
def mkExploded : RawNewsItem × Option AssetRef → Option ExplodedRow
  | (_, none) => none
  | (it, some a) =>
      some { asset_id := a.id
             asset_name := a.name
             date := dateOfMillis it.publishTimeMillis
             title := it.title.getD "None"
             description := it.description.getD "None"
             url := it.url.getD "None" }

/-- The rows aggregated under one grouping key, in document order. -/
def groupRows (rows : List ExplodedRow) (k : String × String × ℤ) : List ExplodedRow :=
  rows.filter (fun r => keyOf r = k)

/-- One aggregated row: the three text columns are collected into lists
in document order, and `count` is `len` of the title list
(line 99 of 01_fetch_data.py: `grouped_df["title"].apply(len)`). -/
def mkAgg (rows : List ExplodedRow) (k : String × String × ℤ) : AggRow :=
  let g := groupRows rows k
  let ts := g.map (·.title)
  { asset_id := k.1
    asset_name := k.2.1
    date := k.2.2
    titles := ts
    descriptions := g.map (·.description)
    urls := g.map (·.url)
    count := ts.length }

/-- `process_news_data`: date derivation, drop rows with a null
`assets`, explode over assets, extract id/name, coerce null text fields
to "None", group by (asset_id, asset_name, date) collecting lists, and
attach `count`; also returns the unique asset ids and dates of the
exploded frame. Returns `none` when the asset extraction fails (an
item with an empty, non-null asset list). -/
def process_news_data (items : List RawNewsItem) :
    Option (List AggRow × List String × List ℤ) := do
  let rows ← (explodedPairs items).mapM mkExploded
  let keys := List.insertionSort (fun a b => keyLE a b = true) (uniqueFirst (rows.map keyOf))
  pure (keys.map (mkAgg rows),
        uniqueFirst (rows.map (·.asset_id)),
        uniqueFirst (rows.map (·.date)))

/-!
## Price rows and the merge (01_fetch_data.py, `main` lines 202-205)
-/

/-- One row of the market-data frame after column selection:
`df[["date", "asset_id", "close"]]`. -/
structure PriceRow where
  asset_id : String
  date : ℤ
  close : ℚ
deriving DecidableEq, Repr

/-- One row of `pd.merge(processed_news_df, market_df,
on=["asset_id", "date"], how="left")`: the news columns plus a
nullable `close`. -/
structure MergedRow where
  asset_id : String
  asset_name : String
  date : ℤ
  titles : List String
  descriptions : List String
  urls : List String
  count : ℕ
  close : Option ℚ
deriving DecidableEq, Repr

/-- A news row extended with a close value. -/
def MergedRow.ofAgg (n : AggRow) (c : Option ℚ) : MergedRow :=
  { asset_id := n.asset_id, asset_name := n.asset_name, date := n.date
    titles := n.titles, descriptions := n.descriptions, urls := n.urls
    count := n.count, close := c }

/-- pandas left merge on `["asset_id", "date"]`: every left row is
kept; a left row with matching right rows yields one output row per
match (right-table order), a left row with no match yields one row
with a null `close`. -/
def merge (news : List AggRow) (prices : List PriceRow) : List MergedRow :=
  news.flatMap (fun n =>
    match prices.filter (fun p => p.asset_id = n.asset_id ∧ p.date = n.date) with
    | [] => [MergedRow.ofAgg n none]
    | ms => ms.map (fun p => MergedRow.ofAgg n (some p.close)))

/-!
## Batch fetchers (01_fetch_data.py, sections 1 and 2)

The async fetchers are embedded as deterministic functions of a
response oracle. A raised exception (HTTP failure, or a parse failure
on the response envelope) is an `Except.error`; `asyncio.gather`
without `return_exceptions` propagates any task's exception, so the
batch is the monadic `mapM` of the per-descriptor fetch.
-/

/-- An exception aborting a fetch: a transport (HTTP) failure, a
malformed response envelope, or pandas `ValueError`. -/
inductive FetchError where
  | transport : String → FetchError
  | malformed : String → FetchError
  | valueError : String → FetchError
deriving DecidableEq, Repr

/-- `pd.concat`: raises `ValueError` on an empty list of objects,
otherwise concatenates the frames. -/
def pdConcat {α : Type} (frames : List (List α)) : Except FetchError (List α) :=
  match frames with
  | [] => .error (.valueError "No objects to concatenate")
  | fs => .ok fs.flatten

/-- `fetch_all_news_pages`: one task per page, gathered; any page's
failure propagates; the page frames are concatenated with `pd.concat`.
The returned value does not depend on the semaphore size: the gathered
results are in task order regardless of scheduling. -/
def fetch_all_news_pages (respond : ℕ → Except FetchError (List RawNewsItem))
    (pages : List ℕ) (_sem_value : ℕ) : Except FetchError (List RawNewsItem) := do
  let results ← pages.mapM respond
  pdConcat results

/-- One point of a market time-series response's `data` array. -/
structure MarketPoint where
  timestamp : ℤ
  close : ℚ
deriving DecidableEq, Repr

/-- `fetch_single_asset_market_data`: a falsy response body (`none`)
yields an empty frame; otherwise the `data` array is tagged with the
asset id. -/
def fetch_single_asset_market_data
    (respond : String → Except FetchError (Option (List MarketPoint)))
    (asset_id : String) : Except FetchError (List (String × MarketPoint)) := do
  match ← respond asset_id with
  | none => pure []
  | some pts => pure (pts.map (fun p => (asset_id, p)))

/-- `fetch_all_market_data`: one task per asset id, gathered, frames
concatenated with `pd.concat`, then the UTC date is derived from the
second-epoch `timestamp` and the three columns are selected. -/
def fetch_all_market_data
    (respond : String → Except FetchError (Option (List MarketPoint)))
    (asset_ids : List String) (_sem_value : ℕ) : Except FetchError (List PriceRow) := do
  let results ← asset_ids.mapM (fetch_single_asset_market_data respond)
  let df ← pdConcat results
  pure (df.map (fun ap =>
    { asset_id := ap.1, date := dateOfSeconds ap.2.timestamp, close := ap.2.close }))

/-!
## Metrics (02_metrics_and_charting.py)
-/

/-- `ROLLING_WINDOW = 7` (02_metrics_and_charting.py, line 16). -/
def ROLLING_WINDOW : ℕ := 7

/-- `MIN_PERIODS = 1` (02_metrics_and_charting.py, line 17). -/
def MIN_PERIODS : ℕ := 1

/-- One row of the merged table as script 02 reads it: the columns
`calculate_metrics`/`clean_data` touch. `close` is nullable (the left
merge leaves NaN where no price matched). -/
structure Row2 where
  asset_id : String
  asset_name : String
  date : ℤ
  count : ℚ
  close : Option ℚ
deriving DecidableEq, Repr

/-- A `Row2` plus the four derived metric columns. -/
structure MetricsRow extends Row2 where
  count_7d_avg : FV
  trend_score : FV
  acceleration_score : FV
  price_score : FV
deriving DecidableEq, Repr

/-- A `MetricsRow` plus `momentum_score` (added in `clean_data`). -/
structure CleanRow extends MetricsRow where
  momentum_score : FV
deriving DecidableEq, Repr

/-- Arithmetic mean of a list of rationals. -/
def listMean (xs : List ℚ) : ℚ := qdiv (qsum xs) (xs.length : ℚ)

/-- pandas `Series.rolling(window=w, min_periods=mp).mean()`: at each
index the mean of the trailing window of up to `w` values; NaN while
fewer than `mp` observations are available. -/
def rollingMeanMP (w mp : ℕ) (xs : List ℚ) : List FV :=
  (List.range xs.length).map (fun i =>
    let win := (xs.take (i + 1)).drop (i + 1 - w)
    if win.length < mp then FV.nan else FV.fin (listMean win))

/-- Forward fill (`pad`): a NaN cell takes the last preceding non-NaN
value; leading NaNs stay NaN. `last` is that preceding value. -/
def ffillFrom (last : Option FV) : List FV → List FV
  | [] => []
  | x :: xs =>
      if x.isNan then
        match last with
        | some v => v :: ffillFrom (some v) xs
        | none => FV.nan :: ffillFrom none xs
      else x :: ffillFrom (some x) xs

/-- pandas `Series.ffill()`. -/
def ffill (xs : List FV) : List FV := ffillFrom none xs

/-- pandas `Series.pct_change(periods=p)` with its default
`fill_method="pad"`: forward-fill, then `filled / filled.shift(p) - 1`;
the first `p` positions compare against a shifted-in NaN. -/
def pctChange (p : ℕ) (xs : List FV) : List FV :=
  let f := ffill xs
  (List.range xs.length).map (fun i =>
    if i < p then FV.nan
    else FV.sub (FV.div (f.getD i FV.nan) (f.getD (i - p) FV.nan)) (FV.fin 1))

/-- The `count` series of one `groupby("asset_id")` group, in table
order. -/
def groupCounts (df : List Row2) (a : String) : List ℚ :=
  (df.filter (fun r => r.asset_id = a)).map (·.count)

/-- The `close` series of one group, as float cells (null is NaN). -/
def groupCloses (df : List Row2) (a : String) : List FV :=
  (df.filter (fun r => r.asset_id = a)).map (fun r =>
    match r.close with
    | some c => FV.fin c
    | none => FV.nan)

/-- The position of table row `i` inside its `asset_id` group: the
number of earlier rows of the same asset. `groupby(...).transform`
scatters each group result back to the rows of the group. -/
def groupPos (df : List Row2) (i : ℕ) (a : String) : ℕ :=
  ((df.take i).filter (fun r => r.asset_id = a)).length

/-- The metric columns `calculate_metrics` attaches to the table row
at position `i` holding `r`: each per-asset transformed series,
read at the row's position within its `asset_id` group. -/
def calcRow (df : List Row2) (i : ℕ) (r : Row2) : MetricsRow :=
  let a := r.asset_id
  let avg := rollingMeanMP ROLLING_WINDOW MIN_PERIODS (groupCounts df a)
  let trend := pctChange ROLLING_WINDOW avg
  let accel := pctChange 1 trend
  let price := pctChange ROLLING_WINDOW (groupCloses df a)
  let p := groupPos df i a
  { toRow2 := r
    count_7d_avg := avg.getD p FV.nan
    trend_score := trend.getD p FV.nan
    acceleration_score := accel.getD p FV.nan
    price_score := price.getD p FV.nan }

/-- `calculate_metrics`: per-asset rolling mean of `count`
(window 7, min_periods 1), `pct_change(7)` of that average,
`pct_change(1)` of the trend, and `pct_change(7)` of `close`, each
scattered back to the row's position in its group. -/
def calculate_metrics (df : List Row2) : List MetricsRow :=
  df.enum.map (fun ir => calcRow df ir.1 ir.2)

/-- `df.replace([inf, -inf], nan)` on one cell. -/
def replaceInfNan : FV → FV
  | FV.pinf => FV.nan
  | FV.ninf => FV.nan
  | x => x

/-- The `dropna(subset=["close", "trend_score", "acceleration_score",
"price_score"])` row predicate: none of the four cells is na. -/
def keepRow (r : MetricsRow) : Bool :=
  r.close.isSome && !r.trend_score.isNan &&
    !r.acceleration_score.isNan && !r.price_score.isNan

/-- The final `sort_values(["date", "momentum_score"],
ascending=[False, False])` comparison. -/
def cleanLE (a b : CleanRow) : Bool :=
  if a.date ≠ b.date then decide (b.date < a.date)
  else FV.leB b.momentum_score a.momentum_score

/-- The per-row effect of `df[col].replace([inf, -inf], nan)` applied
to the three score columns. -/
def replaceScores (r : MetricsRow) : MetricsRow :=
  { r with trend_score := replaceInfNan r.trend_score
           acceleration_score := replaceInfNan r.acceleration_score
           price_score := replaceInfNan r.price_score }

/-- The per-row effect of the `momentum_score` column assignment:
`df["trend_score"] * df["acceleration_score"] * df["price_score"]`. -/
def withMomentum (r : MetricsRow) : CleanRow :=
  { toMetricsRow := r
    momentum_score :=
      FV.mul (FV.mul r.trend_score r.acceleration_score) r.price_score }

/-- `clean_data`: replace ±infinity with NaN in the three score
columns, drop rows with na in close/trend/acceleration/price, compute
`momentum_score` as the product of the three scores, keep rows with
`momentum_score > 0`, then rows with `acceleration_score > 0`, and
sort by date then momentum score, both descending. -/
def clean_data (rows : List MetricsRow) : List CleanRow :=
  List.insertionSort (fun a b => cleanLE a b = true)
    (List.filter (fun r => r.acceleration_score.pos)
      (List.filter (fun r => r.momentum_score.pos)
        (List.map withMomentum
          (List.filter keepRow (List.map replaceScores rows)))))

/-!
## Concurrency structure of the fetchers

`fetch_single_news_page` (and its market twin) runs
`async with sem: await asyncio.sleep(1); <request>`. We model one
batch as a transition system over abstract time: each task is
`pending` until it acquires the semaphore, then `sleeping` (holding a
slot, recorded with its acquisition time), then `requesting` (its
request has been issued, recorded with the issue time), then `done`
(slot released). `asyncio.sleep(1)` forbids issuing before one time
unit has passed since acquisition.
-/

/-- The lifecycle phase of one fetch task. -/
inductive Phase where
  | pending : Phase
  | sleeping : ℕ → Phase
  | requesting : ℕ → ℕ → Phase
  | done : ℕ → ℕ → Phase
deriving DecidableEq, Repr

/-- A task holds a semaphore slot from acquisition to release; its
request is "in flight" (at most the sleep plus the HTTP round trip)
exactly while it holds the slot. -/
def Phase.holding : Phase → Bool
  | sleeping _ => true
  | requesting _ _ => true
  | _ => false

/-- A task's request, once issued, was issued at least one time unit
after the task acquired its slot. -/
def Phase.throttled : Phase → Prop
  | requesting acq req => acq + 1 ≤ req
  | done acq req => acq + 1 ≤ req
  | _ => True

/-- Has the task finished? -/
def Phase.isDone : Phase → Bool
  | done _ _ => true
  | _ => false

/-- The state of one gathered batch: the abstract clock, the phase of
each task, and the semaphore's available permits. -/
structure Sched where
  time : ℕ
  tasks : List Phase
  avail : ℕ
deriving DecidableEq, Repr

/-- The initial state of a batch of `k` tasks under
`asyncio.Semaphore(N)`: all tasks pending, `N` permits available. -/
def Sched.init (N k : ℕ) : Sched :=
  { time := 0, tasks := List.replicate k Phase.pending, avail := N }

/-- One scheduler step: time passes, or a task acquires the semaphore
(`async with sem` entry, only when a permit is available), issues its
request (only after sleeping a full time unit), or completes and
releases its permit (`async with sem` exit). -/
inductive SchedStep : Sched → Sched → Prop where
  | tick (σ : Sched) :
      SchedStep σ { σ with time := σ.time + 1 }
  | acquire (σ : Sched) (i : ℕ)
      (h : σ.tasks[i]? = some Phase.pending) (ha : 0 < σ.avail) :
      SchedStep σ { σ with tasks := σ.tasks.set i (Phase.sleeping σ.time),
                           avail := σ.avail - 1 }
  | issue (σ : Sched) (i acq : ℕ)
      (h : σ.tasks[i]? = some (Phase.sleeping acq)) (hd : acq + 1 ≤ σ.time) :
      SchedStep σ { σ with tasks := σ.tasks.set i (Phase.requesting acq σ.time) }
  | finish (σ : Sched) (i acq req : ℕ)
      (h : σ.tasks[i]? = some (Phase.requesting acq req)) :
      SchedStep σ { σ with tasks := σ.tasks.set i (Phase.done acq req),
                           avail := σ.avail + 1 }

/-- The states one batch can reach from its initial state. -/
def SchedReach (N k : ℕ) (σ : Sched) : Prop :=
  Relation.ReflTransGen SchedStep (Sched.init N k) σ

/-- The inductive invariant: the task count is fixed, held slots and
available permits add up to `N`, and every issued request respected
the one-unit post-acquisition delay. -/
def SchedInv (N k : ℕ) (σ : Sched) : Prop :=
  σ.tasks.length = k ∧
    σ.tasks.countP Phase.holding + σ.avail = N ∧
    ∀ ph ∈ σ.tasks, ph.throttled

/-!
## Concrete tables used to instantiate the theorems
-/

/-- A junk `Row2` used only as a `getD` default at in-range indices. -/
def row2Default : Row2 :=
  { asset_id := "", asset_name := "", date := 0, count := 0, close := none }

/-- A junk `MetricsRow` used only as a `getD` default at in-range
indices. -/
def mrDefault : MetricsRow :=
  { toRow2 := row2Default, count_7d_avg := FV.nan, trend_score := FV.nan
    acceleration_score := FV.nan, price_score := FV.nan }

/-- A nine-day single-asset merged table: counts
1,1,1,1,1,1,1,2,4 and closes 1..9. -/
def exDf : List Row2 :=
  [{ asset_id := "a", asset_name := "A", date := 0, count := 1, close := some 1 },
   { asset_id := "a", asset_name := "A", date := 1, count := 1, close := some 2 },
   { asset_id := "a", asset_name := "A", date := 2, count := 1, close := some 3 },
   { asset_id := "a", asset_name := "A", date := 3, count := 1, close := some 4 },
   { asset_id := "a", asset_name := "A", date := 4, count := 1, close := some 5 },
   { asset_id := "a", asset_name := "A", date := 5, count := 1, close := some 6 },
   { asset_id := "a", asset_name := "A", date := 6, count := 1, close := some 7 },
   { asset_id := "a", asset_name := "A", date := 7, count := 2, close := some 8 },
   { asset_id := "a", asset_name := "A", date := 8, count := 4, close := some 9 }]

/-- The single row of `clean_data (calculate_metrics exDf)`. -/
def exCleanRow : CleanRow :=
  { asset_id := "a", asset_name := "A", date := 8, count := 4, close := some 9
    count_7d_avg := FV.fin (mkRat 11 7), trend_score := FV.fin (mkRat 4 7)
    acceleration_score := FV.fin 3, price_score := FV.fin (mkRat 7 2)
    momentum_score := FV.fin 6 }

/-- A one-row aggregated news table keyed ("a", 0). -/
def exNews : List AggRow :=
  [{ asset_id := "a", asset_name := "A", date := 0, titles := ["t"]
     descriptions := ["d"], urls := ["u"], count := 1 }]

/-- A price table with a duplicated ("a", 0) key. -/
def exDupPrices : List PriceRow :=
  [{ asset_id := "a", date := 0, close := 5 },
   { asset_id := "a", date := 0, close := 6 }]

/-- A two-row aggregated news table; the second key has no price. -/
def exNews2 : List AggRow :=
  [{ asset_id := "a", asset_name := "A", date := 0, titles := ["t"]
     descriptions := ["d"], urls := ["u"], count := 1 },
   { asset_id := "c", asset_name := "C", date := 1, titles := ["s"]
     descriptions := ["e"], urls := ["v"], count := 1 }]

/-- A price table with pairwise distinct (asset_id, date) keys. -/
def exPrices : List PriceRow :=
  [{ asset_id := "a", date := 0, close := 5 },
   { asset_id := "b", date := 0, close := 7 }]

/-- Three raw news items: two with asset lists, one with a null
`assets` field (dropped by `process_news_data`). -/
def exItems : List RawNewsItem :=
  [{ publishTimeMillis := 0, title := some "t1", description := none
     url := some "u1"
     assets := some [{ id := "id1", name := "N1" }, { id := "id2", name := "N2" }] },
   { publishTimeMillis := 86400000, title := some "t2", description := some "d2"
     url := some "u2", assets := none },
   { publishTimeMillis := 1000, title := none, description := some "d3"
     url := none, assets := some [{ id := "id1", name := "N1" }] }]

/-- The first aggregated row `process_news_data` produces on
`exItems`. -/
def exAgg1 : AggRow :=
  { asset_id := "id1", asset_name := "N1", date := 0
    titles := ["t1", "None"], descriptions := ["None", "d3"]
    urls := ["u1", "None"], count := 2 }

/-- The second aggregated row `process_news_data` produces on
`exItems`. -/
def exAgg2 : AggRow :=
  { asset_id := "id2", asset_name := "N2", date := 0
    titles := ["t1"], descriptions := ["None"], urls := ["u1"], count := 1 }

/-!
## Theorems
-/

/-- `qdiv` is rational division. -/
theorem qdiv_eq_div (a b : ℚ) : qdiv a b = a / b := by
  unfold qdiv
  have key : ∀ p q : ℤ,
      (if q < 0 then mkRat (-p) q.natAbs else mkRat p q.natAbs)
        = (p : ℚ) / (q : ℚ) := by
    intro p q
    by_cases hq : q < 0
    · have habs : |q| = -q := abs_of_neg hq
      rw [if_pos hq, Rat.mkRat_eq_div, Int.cast_natAbs, habs]
      push_cast
      rw [neg_div_neg_eq]
    · have habs : |q| = q := abs_of_nonneg (le_of_not_lt hq)
      rw [if_neg hq, Rat.mkRat_eq_div, Int.cast_natAbs, habs]
  rw [key]
  by_cases hb : b.num = 0
  · have hb0 : b = 0 := Rat.num_eq_zero.mp hb
    subst hb0
    simp
  · have hbQ : ((b.num : ℤ) : ℚ) ≠ 0 := by
      simpa using hb
    have had : ((a.den : ℕ) : ℚ) ≠ 0 := by
      simpa using a.den_nz
    have hbd : ((b.den : ℕ) : ℚ) ≠ 0 := by
      simpa using b.den_nz
    conv_rhs => rw [← Rat.num_div_den a, ← Rat.num_div_den b]
    push_cast
    field_simp

/-- `qadd` is rational addition. -/
theorem qadd_eq_add (a b : ℚ) : qadd a b = a + b := by
  unfold qadd
  rw [Rat.mkRat_eq_div]
  have had : ((a.den : ℕ) : ℚ) ≠ 0 := by
    simpa using a.den_nz
  have hbd : ((b.den : ℕ) : ℚ) ≠ 0 := by
    simpa using b.den_nz
  conv_rhs => rw [← Rat.num_div_den a, ← Rat.num_div_den b]
  push_cast
  field_simp

/-- `qsub` is rational subtraction. -/
theorem qsub_eq_sub (a b : ℚ) : qsub a b = a - b := by
  unfold qsub
  rw [Rat.mkRat_eq_div]
  have had : ((a.den : ℕ) : ℚ) ≠ 0 := by
    simpa using a.den_nz
  have hbd : ((b.den : ℕ) : ℚ) ≠ 0 := by
    simpa using b.den_nz
  conv_rhs => rw [← Rat.num_div_den a, ← Rat.num_div_den b]
  push_cast
  field_simp
  exact mul_comm _ _

/-- `qmul` is rational multiplication. -/
theorem qmul_eq_mul (a b : ℚ) : qmul a b = a * b := by
  unfold qmul
  rw [Rat.mkRat_eq_div]
  have had : ((a.den : ℕ) : ℚ) ≠ 0 := by
    simpa using a.den_nz
  have hbd : ((b.den : ℕ) : ℚ) ≠ 0 := by
    simpa using b.den_nz
  conv_rhs => rw [← Rat.num_div_den a, ← Rat.num_div_den b]
  push_cast
  field_simp

/-- `qsum` is the list sum. -/
theorem qsum_eq_sum (xs : List ℚ) : qsum xs = xs.sum := by
  induction xs with
  | nil => rfl
  | cons x rest ih =>
      unfold qsum at *
      rw [List.foldr_cons, List.sum_cons, qadd_eq_add, ih]

/-- C6: the news ingestor truncates a millisecond instant and the
market ingestor truncates a second instant to the same UTC calendar
day: for every epoch second `t`, the day derived from `t * 1000`
milliseconds equals the day derived from `t` seconds. -/
theorem news_market_dates_agree (t : ℤ) :
    dateOfMillis (t * 1000) = dateOfSeconds t := by
  unfold dateOfMillis dateOfSeconds
  rw [Int.fdiv_eq_ediv _ (by norm_num), Int.fdiv_eq_ediv _ (by norm_num)]
  have h : (86400000 : ℤ) = 1000 * 86400 := by norm_num
  rw [h, mul_comm t 1000, Int.mul_ediv_mul_of_pos _ _ (by norm_num)]

/-- C4 counterexample: on an empty page list (resp. asset-id list)
both batch fetchers raise `pd.concat`'s `ValueError` instead of
succeeding with an empty result. -/
theorem empty_batch_counterexample :
    fetch_all_news_pages (fun _ => Except.ok []) [] 1
        = Except.error (FetchError.valueError "No objects to concatenate") ∧
      fetch_all_market_data (fun _ => Except.ok none) [] 1
        = Except.error (FetchError.valueError "No objects to concatenate") :=
  ⟨rfl, rfl⟩

/-- C4 amended: for every concurrency limit N ≥ 1 and every response
oracle, running either batch fetcher on an empty descriptor list fails
with `pd.concat`'s "No objects to concatenate" `ValueError`; it does
not return an empty result. -/
theorem empty_batch_errors (N : ℕ) (_hN : 1 ≤ N)
    (respondN : ℕ → Except FetchError (List RawNewsItem))
    (respondM : String → Except FetchError (Option (List MarketPoint))) :
    fetch_all_news_pages respondN [] N
        = Except.error (FetchError.valueError "No objects to concatenate") ∧
      fetch_all_market_data respondM [] N
        = Except.error (FetchError.valueError "No objects to concatenate") :=
  ⟨rfl, rfl⟩

/-- Witness for the amended C4, at N = 1 and trivial oracles. -/
theorem empty_batch_errors_witness :
    fetch_all_news_pages (fun _ => Except.ok []) [] 1
        = Except.error (FetchError.valueError "No objects to concatenate") ∧
      fetch_all_market_data (fun _ => Except.ok none) [] 1
        = Except.error (FetchError.valueError "No objects to concatenate") :=
  empty_batch_errors 1 (by decide) (fun _ => Except.ok []) (fun _ => Except.ok none)

/-- A `mapM` over `Except` fails as soon as any element fails. -/
theorem mapM_except_not_ok {α β ε : Type} (f : α → Except ε β) (l : List α)
    (h : ∃ x ∈ l, (f x).isOk = false) : (l.mapM f).isOk = false := by
  induction l with
  | nil => simp at h
  | cons x xs ih =>
      rw [List.mapM_cons]
      rcases h with ⟨y, hy, hfy⟩
      rcases List.mem_cons.mp hy with rfl | hmem
      · cases hfx : f y with
        | error e => rfl
        | ok v =>
            rw [hfx] at hfy
            simp [Except.isOk, Except.toBool] at hfy
      · cases hfx : f x with
        | error e => rfl
        | ok v =>
            have hxs : (xs.mapM f).isOk = false := ih ⟨y, hmem, hfy⟩
            cases hm : xs.mapM f with
            | error e => rfl
            | ok vs =>
                rw [hm] at hxs
                simp [Except.isOk, Except.toBool] at hxs

/-- C5: if any single page's HTTP fetch or response parse fails, the
whole gathered news batch fails — the error propagates out of
`fetch_all_news_pages` and no partial record set is returned
(the result is an `Except.error`, which carries no records); the
fetcher consults each page's oracle once, with no retry. -/
theorem fetch_batch_failfast (respond : ℕ → Except FetchError (List RawNewsItem))
    (pages : List ℕ) (N : ℕ)
    (h : ∃ p ∈ pages, (respond p).isOk = false) :
    (fetch_all_news_pages respond pages N).isOk = false := by
  have hm : (pages.mapM respond).isOk = false := mapM_except_not_ok respond pages h
  unfold fetch_all_news_pages
  cases hmm : pages.mapM respond with
  | error e => rfl
  | ok vs =>
      rw [hmm] at hm
      simp [Except.isOk, Except.toBool] at hm

/-- Witness for C5: a batch of pages 1 and 2 whose page-2 fetch
raises a transport error yields a failed batch. -/
theorem fetch_batch_failfast_witness :
    (fetch_all_news_pages
        (fun p => if p = 2 then Except.error (FetchError.transport "boom")
                  else Except.ok [])
        [1, 2] 1).isOk = false :=
  fetch_batch_failfast _ [1, 2] 1 (by decide)

/-- `find?` returns the head of the filtered list. -/
theorem find?_eq_head_filter {α : Type} (pr : α → Bool) (l : List α) :
    l.find? pr = (l.filter pr).head? := by
  induction l with
  | nil => rfl
  | cons x xs ih =>
      by_cases h : pr x
      · rw [List.find?_cons_of_pos _ h, List.filter_cons_of_pos h]; rfl
      · rw [List.find?_cons_of_neg _ h, List.filter_cons_of_neg h]; exact ih

/-- Under pairwise-distinct (asset_id, date) keys, at most one price
row matches a given key. -/
theorem filter_key_subsingleton (prices : List PriceRow)
    (hU : prices.Pairwise (fun p q => (p.asset_id, p.date) ≠ (q.asset_id, q.date)))
    (aid : String) (d : ℤ) :
    prices.filter (fun p => p.asset_id = aid ∧ p.date = d) = [] ∨
      ∃ p, prices.filter (fun p => p.asset_id = aid ∧ p.date = d) = [p] := by
  cases hf : prices.filter (fun p => p.asset_id = aid ∧ p.date = d) with
  | nil => exact Or.inl rfl
  | cons p rest =>
      refine Or.inr ⟨p, ?_⟩
      cases rest with
      | nil => rfl
      | cons q rest2 =>
          exfalso
          have hsub : (prices.filter (fun p => p.asset_id = aid ∧ p.date = d)).Sublist prices :=
            List.filter_sublist prices
          have hpw := List.Pairwise.sublist hsub hU
          rw [hf] at hpw
          have hpq := (List.pairwise_cons.mp hpw).1 q (by simp)
          have hp : p ∈ prices.filter (fun p => p.asset_id = aid ∧ p.date = d) := by
            rw [hf]; simp
          have hq : q ∈ prices.filter (fun p => p.asset_id = aid ∧ p.date = d) := by
            rw [hf]; simp
          have hp' := List.of_mem_filter hp
          have hq' := List.of_mem_filter hq
          simp only [decide_eq_true_eq] at hp' hq'
          exact hpq (by rw [hp'.1, hp'.2, hq'.1, hq'.2])

/-- C1 counterexample: with a price table whose ("a", 0) key is
duplicated, the left merge yields two rows for a one-row news table,
so the output length does not equal the news table's length. -/
theorem merge_dup_counterexample :
    (merge exNews exDupPrices).length ≠ exNews.length := by decide

/-- C1 amended: for every news table and every prices table whose
(assetId, date) keys are pairwise distinct, the merge returns exactly
one `MergedRow` per news row — it equals the news table mapped through
a per-row lookup, so the output length equals the news length, every
output row carries the (assetId, date) pair of its source news row,
and close is the matching price's close when a match exists, else
null; no news row is dropped. -/
theorem merge_left_join (news : List AggRow) (prices : List PriceRow)
    (hU : prices.Pairwise (fun p q => (p.asset_id, p.date) ≠ (q.asset_id, q.date))) :
    merge news prices
        = news.map (fun n => MergedRow.ofAgg n
            ((prices.find? (fun p => p.asset_id = n.asset_id ∧ p.date = n.date)).map
              PriceRow.close)) ∧
      (merge news prices).length = news.length ∧
      (merge news prices).map (fun m => (m.asset_id, m.date))
        = news.map (fun n => (n.asset_id, n.date)) := by
  have hrow : ∀ n : AggRow,
      (match prices.filter (fun p => p.asset_id = n.asset_id ∧ p.date = n.date) with
        | [] => [MergedRow.ofAgg n none]
        | ms => ms.map (fun p => MergedRow.ofAgg n (some p.close)))
      = [MergedRow.ofAgg n
          ((prices.find? (fun p => p.asset_id = n.asset_id ∧ p.date = n.date)).map
            PriceRow.close)] := by
    intro n
    rcases filter_key_subsingleton prices hU n.asset_id n.date with hf | ⟨p, hf⟩
    · rw [find?_eq_head_filter, hf]; rfl
    · rw [find?_eq_head_filter, hf]; rfl
  have hmain : merge news prices
      = news.map (fun n => MergedRow.ofAgg n
          ((prices.find? (fun p => p.asset_id = n.asset_id ∧ p.date = n.date)).map
            PriceRow.close)) := by
    unfold merge
    induction news with
    | nil => rfl
    | cons n ns ih => rw [List.flatMap_cons, hrow n, List.map_cons, ih]; rfl
  refine ⟨hmain, ?_, ?_⟩
  · rw [hmain, List.length_map]
  · rw [hmain, List.map_map]; rfl

/-- Witness for the amended C1, on a two-row news table (one key
matched by a price row, one unmatched) and a unique-key price table. -/
theorem merge_left_join_witness :
    merge exNews2 exPrices
        = exNews2.map (fun n => MergedRow.ofAgg n
            ((exPrices.find? (fun p => p.asset_id = n.asset_id ∧ p.date = n.date)).map
              PriceRow.close)) ∧
      (merge exNews2 exPrices).length = exNews2.length ∧
      (merge exNews2 exPrices).map (fun m => (m.asset_id, m.date))
        = exNews2.map (fun n => (n.asset_id, n.date)) :=
  merge_left_join exNews2 exPrices (by decide)

/-- A successful `mapM` over `Option` computes the same list as
`filterMap`. -/
theorem mapM_option_eq_filterMap {α β : Type} (f : α → Option β)
    (l : List α) (l' : List β) (h : l.mapM f = some l') :
    l.filterMap f = l' := by
  induction l generalizing l' with
  | nil =>
      rw [List.mapM_nil] at h
      cases h
      rfl
  | cons x xs ih =>
      rw [List.mapM_cons] at h
      rcases Option.bind_eq_some.mp h with ⟨b, hfx, h2⟩
      rcases Option.bind_eq_some.mp h2 with ⟨bs, hm, h3⟩
      cases h3
      rw [List.filterMap_cons_some hfx, ih bs hm]

/-- C3: every aggregated news row's `count` equals the length of its
title list, which equals the lengths of its description and url lists,
and equals the number of exploded (item, asset) mentions aggregated
under the row's (assetId, assetName, date) key; `count` is computed
from the title list, never independently. -/
theorem aggregate_count_consistent (items : List RawNewsItem)
    (aggs : List AggRow) (ids : List String) (dates : List ℤ)
    (h : process_news_data items = some (aggs, ids, dates))
    (r : AggRow) (hr : r ∈ aggs) :
    r.count = r.titles.length ∧
      r.titles.length = r.descriptions.length ∧
      r.descriptions.length = r.urls.length ∧
      r.count = (((explodedPairs items).filterMap mkExploded).filter
          (fun e => keyOf e = (r.asset_id, r.asset_name, r.date))).length := by
  unfold process_news_data at h
  rcases Option.bind_eq_some.mp h with ⟨rows, hm, h2⟩
  have hfm : (explodedPairs items).filterMap mkExploded = rows :=
    mapM_option_eq_filterMap _ _ _ hm
  have haggs : aggs
      = (List.insertionSort (fun a b => keyLE a b = true)
          (uniqueFirst (rows.map keyOf))).map (mkAgg rows) := by
    cases h2
    rfl
  rw [haggs] at hr
  rcases List.mem_map.mp hr with ⟨k, _, rfl⟩
  rw [hfm]
  refine ⟨rfl, ?_, ?_, ?_⟩
  · simp [mkAgg]
  · simp [mkAgg]
  · simp [mkAgg, groupRows]

/-- Witness for C3: the first aggregated row of `exItems` has two
titles, two descriptions, two urls, and two exploded mentions. -/
theorem aggregate_count_consistent_witness :
    exAgg1.count = exAgg1.titles.length ∧
      exAgg1.titles.length = exAgg1.descriptions.length ∧
      exAgg1.descriptions.length = exAgg1.urls.length ∧
      exAgg1.count = (((explodedPairs exItems).filterMap mkExploded).filter
          (fun e => keyOf e = (exAgg1.asset_id, exAgg1.asset_name, exAgg1.date))).length :=
  aggregate_count_consistent exItems [exAgg1, exAgg2] ["id1", "id2"] [0]
    (by decide) exAgg1 (by decide)

/-- Reading a mapped range at an in-range index. -/
theorem getD_map_range {β : Type} (f : ℕ → β) (n p : ℕ) (d : β) (h : p < n) :
    ((List.range n).map f).getD p d = f p := by
  rw [List.getD_eq_getElem?_getD, List.getElem?_map, List.getElem?_range h]
  rfl

/-- `calculate_metrics` read at an in-range position is `calcRow` of
the table row there. -/
theorem calculate_metrics_getD (df : List Row2) (i : ℕ) (hi : i < df.length) :
    (calculate_metrics df).getD i mrDefault = calcRow df i (df.getD i row2Default) := by
  unfold calculate_metrics
  rw [List.getD_eq_getElem?_getD, List.getElem?_map, List.getElem?_enum,
    List.getElem?_eq_getElem hi, List.getD_eq_getElem df row2Default hi]
  rfl

/-- Splitting a filtered list at an in-range index whose element
passes the filter. -/
theorem filter_decomp {α : Type} (P : α → Bool) (df : List α) (i : ℕ) (d₀ : α)
    (hi : i < df.length) (hP : P (df.getD i d₀) = true) :
    df.filter P
      = (df.take i).filter P ++ (df.getD i d₀) :: (df.drop (i + 1)).filter P := by
  conv_lhs => rw [← List.take_append_drop i df]
  rw [List.filter_append, List.drop_eq_getElem_cons hi,
    ← List.getD_eq_getElem df d₀ hi, List.filter_cons_of_pos hP]

/-- `take (i+1)` appends the element at `i` to `take i`. -/
theorem take_succ_getD {α : Type} (df : List α) (i : ℕ) (d₀ : α) (hi : i < df.length) :
    df.take (i + 1) = df.take i ++ [df.getD i d₀] := by
  have h : df[i]? = some (df.getD i d₀) := by
    rw [List.getElem?_eq_getElem hi, List.getD_eq_getElem df d₀ hi]
  rw [List.take_succ, h]
  rfl

/-- The asset-id group of the row at `i`, split around that row. -/
theorem group_split (df : List Row2) (i : ℕ) (hi : i < df.length) :
    df.filter (fun r => r.asset_id = (df.getD i row2Default).asset_id)
      = (df.take i).filter (fun r => r.asset_id = (df.getD i row2Default).asset_id)
        ++ (df.getD i row2Default)
          :: (df.drop (i + 1)).filter
              (fun r => r.asset_id = (df.getD i row2Default).asset_id) :=
  filter_decomp _ df i row2Default hi (by simp)

/-- The group restricted to rows up to and including `i`: the earlier
same-asset rows followed by the row at `i`. -/
theorem group_prefix_split (df : List Row2) (i : ℕ) (hi : i < df.length) :
    (df.take (i + 1)).filter (fun r => r.asset_id = (df.getD i row2Default).asset_id)
      = (df.take i).filter (fun r => r.asset_id = (df.getD i row2Default).asset_id)
        ++ [df.getD i row2Default] := by
  rw [take_succ_getD df i row2Default hi, List.filter_append]
  simp

/-- `rolling(window=7, min_periods=1).mean()` read at an in-range
index: the mean of the trailing window, always finite. -/
theorem rollingMeanMP_getD (xs : List ℚ) (j : ℕ) (hj : j < xs.length) :
    (rollingMeanMP ROLLING_WINDOW MIN_PERIODS xs).getD j FV.nan
      = FV.fin (listMean ((xs.take (j + 1)).drop (j + 1 - ROLLING_WINDOW))) := by
  unfold rollingMeanMP
  rw [getD_map_range _ _ _ _ hj]
  have hlen : ((xs.take (j + 1)).drop (j + 1 - ROLLING_WINDOW)).length
      = (j + 1) ⊓ xs.length - (j + 1 - ROLLING_WINDOW) := by
    rw [List.length_drop, List.length_take]
  rw [if_neg]
  rw [hlen]
  unfold ROLLING_WINDOW MIN_PERIODS
  omega

/-- C7: the `count_7d_avg` of the row at position `i` equals the
arithmetic mean of `count` over that row and the at most 6 nearest
earlier rows of the same asset (a trailing window of up to 7 same-asset
rows, minimum one observation); for an asset with exactly one row it
equals that row's own count. -/
theorem count_avg_trailing_window (df : List Row2) (i : ℕ) (hi : i < df.length)
    (pre : List Row2)
    (hpre : pre = (df.take (i + 1)).filter
        (fun r => r.asset_id = (df.getD i row2Default).asset_id)) :
    ((calculate_metrics df).getD i mrDefault).count_7d_avg
        = FV.fin (listMean ((pre.drop (pre.length - 7)).map Row2.count)) ∧
      ((df.filter (fun r => r.asset_id = (df.getD i row2Default).asset_id)).length = 1 →
        ((calculate_metrics df).getD i mrDefault).count_7d_avg
          = FV.fin ((df.getD i row2Default).count)) := by
  have hA := group_prefix_split df i hi
  have hsplit := group_split df i hi
  rw [calculate_metrics_getD df i hi]
  have hfield : (calcRow df i (df.getD i row2Default)).count_7d_avg
      = (rollingMeanMP ROLLING_WINDOW MIN_PERIODS
          (groupCounts df (df.getD i row2Default).asset_id)).getD
        (groupPos df i (df.getD i row2Default).asset_id) FV.nan := rfl
  have hcounts : groupCounts df (df.getD i row2Default).asset_id
      = ((df.take i).filter
            (fun r => r.asset_id = (df.getD i row2Default).asset_id)).map Row2.count
        ++ (df.getD i row2Default).count
          :: ((df.drop (i + 1)).filter
              (fun r => r.asset_id = (df.getD i row2Default).asset_id)).map Row2.count := by
    unfold groupCounts
    rw [hsplit, List.map_append, List.map_cons]
  have hpos : groupPos df i (df.getD i row2Default).asset_id
      = (((df.take i).filter
          (fun r => r.asset_id = (df.getD i row2Default).asset_id)).map Row2.count).length := by
    unfold groupPos
    rw [List.length_map]
  have hcl : groupPos df i (df.getD i row2Default).asset_id
      < (groupCounts df (df.getD i row2Default).asset_id).length := by
    rw [hcounts, hpos, List.length_append, List.length_cons]
    omega
  have hread := rollingMeanMP_getD
    (groupCounts df (df.getD i row2Default).asset_id)
    (groupPos df i (df.getD i row2Default).asset_id) hcl
  have htake : (groupCounts df (df.getD i row2Default).asset_id).take
        (groupPos df i (df.getD i row2Default).asset_id + 1)
      = pre.map Row2.count := by
    rw [hcounts, hpos, hpre, hA, List.take_append 1, List.map_append]
    rfl
  have hprelen : pre.length = groupPos df i (df.getD i row2Default).asset_id + 1 := by
    rw [hpre, hA, List.length_append, hpos, List.length_map]
    rfl
  have hmain : ((calcRow df i (df.getD i row2Default)).count_7d_avg)
      = FV.fin (listMean ((pre.drop (pre.length - 7)).map Row2.count)) := by
    rw [hfield, hread, htake, hprelen, List.map_drop]
    rfl
  refine ⟨hmain, fun hone => ?_⟩
  have hlen1 : ((df.take i).filter
        (fun r => r.asset_id = (df.getD i row2Default).asset_id)).length = 0 ∧
      ((df.drop (i + 1)).filter
        (fun r => r.asset_id = (df.getD i row2Default).asset_id)).length = 0 := by
    rw [hsplit, List.length_append, List.length_cons] at hone
    omega
  have hAnil := List.length_eq_zero.mp hlen1.1
  have hpre1 : pre = [df.getD i row2Default] := by
    rw [hpre, hA, hAnil]
    rfl
  rw [hmain, hpre1]
  simp [listMean, qdiv_eq_div, qsum, qadd_eq_add]

/-- Witness for C7 at row 8 of `exDf`: the trailing window is the
last 7 of the 9 same-asset rows and the average is 11/7. -/
theorem count_avg_trailing_window_witness :
    ((calculate_metrics exDf).getD 8 mrDefault).count_7d_avg
        = FV.fin (listMean (((((exDf.take (8 + 1)).filter
              (fun r => r.asset_id = (exDf.getD 8 row2Default).asset_id))).drop
            ((((exDf.take (8 + 1)).filter
              (fun r => r.asset_id = (exDf.getD 8 row2Default).asset_id))).length - 7)).map
          Row2.count)) ∧
      ((exDf.filter (fun r => r.asset_id = (exDf.getD 8 row2Default).asset_id)).length = 1 →
        ((calculate_metrics exDf).getD 8 mrDefault).count_7d_avg
          = FV.fin ((exDf.getD 8 row2Default).count)) :=
  count_avg_trailing_window exDf 8 (by decide) _ rfl

/-- Length of a rolling-mean series. -/
theorem rollingMeanMP_length (w mp : ℕ) (xs : List ℚ) :
    (rollingMeanMP w mp xs).length = xs.length := by
  unfold rollingMeanMP
  rw [List.length_map, List.length_range]

/-- With min_periods = 1 every rolling-mean cell is finite, hence not
NaN. -/
theorem rollingMeanMP_not_nan (xs : List ℚ) :
    ∀ v ∈ rollingMeanMP ROLLING_WINDOW MIN_PERIODS xs, v.isNan = false := by
  intro v hv
  rcases List.mem_map.mp hv with ⟨j, hj, rfl⟩
  have hjlt : j < xs.length := List.mem_range.mp hj
  have hlen : ((xs.take (j + 1)).drop (j + 1 - ROLLING_WINDOW)).length
      = (j + 1) ⊓ xs.length - (j + 1 - ROLLING_WINDOW) := by
    rw [List.length_drop, List.length_take]
  rw [if_neg]
  · rfl
  · rw [hlen]
    unfold ROLLING_WINDOW MIN_PERIODS
    omega

/-- Forward fill does nothing on a series without NaN. -/
theorem ffillFrom_of_no_nan (xs : List FV) (h : ∀ x ∈ xs, x.isNan = false) :
    ∀ last, ffillFrom last xs = xs := by
  induction xs with
  | nil => intro last; rfl
  | cons x rest ih =>
      intro last
      unfold ffillFrom
      rw [h x (by simp)]
      simp only [Bool.false_eq_true, if_false]
      rw [ih (fun y hy => h y (by simp [hy])) (some x)]

/-- `pct_change(periods=p)` read at an in-range index of a NaN-free
series: NaN for the first `p` positions, else the shifted ratio minus
one. -/
theorem pctChange_getD (xs : List FV) (p j : ℕ) (hj : j < xs.length)
    (hff : ffill xs = xs) :
    (pctChange p xs).getD j FV.nan
      = if j < p then FV.nan
        else FV.sub (FV.div (xs.getD j FV.nan) (xs.getD (j - p) FV.nan)) (FV.fin 1) := by
  unfold pctChange
  rw [getD_map_range _ _ _ _ hj, hff]

/-- The position of row `i` in its group is an in-range index of the
group's count series. -/
theorem groupPos_lt_groupCounts (df : List Row2) (i : ℕ) (hi : i < df.length) :
    groupPos df i (df.getD i row2Default).asset_id
      < (groupCounts df (df.getD i row2Default).asset_id).length := by
  have hsplit := group_split df i hi
  unfold groupCounts groupPos
  rw [hsplit, List.map_append, List.map_cons, List.length_append, List.length_cons,
    List.length_map]
  omega

/-- C8: after the ∞ → null replacement, the `trend_score` of the row
at position `i` is null for the first 7 rows of its asset, and
otherwise equals `(current - previous) / previous` of `count_7d_avg`
against the same-asset row 7 positions earlier — null when that
previous average is zero. -/
theorem trend_score_pct_change (df : List Row2) (i : ℕ) (hi : i < df.length)
    (avg : List FV) (p : ℕ)
    (havg : avg = rollingMeanMP ROLLING_WINDOW MIN_PERIODS
        (groupCounts df (df.getD i row2Default).asset_id))
    (hp : p = groupPos df i (df.getD i row2Default).asset_id) :
    (p < 7 → replaceInfNan ((calculate_metrics df).getD i mrDefault).trend_score = FV.nan) ∧
      (7 ≤ p → ∃ prev cur : ℚ,
        avg.getD (p - 7) FV.nan = FV.fin prev ∧
          avg.getD p FV.nan = FV.fin cur ∧
          replaceInfNan ((calculate_metrics df).getD i mrDefault).trend_score
            = if prev = 0 then FV.nan else FV.fin ((cur - prev) / prev)) := by
  subst havg
  subst hp
  rw [calculate_metrics_getD df i hi]
  have hfield : (calcRow df i (df.getD i row2Default)).trend_score
      = (pctChange ROLLING_WINDOW
          (rollingMeanMP ROLLING_WINDOW MIN_PERIODS
            (groupCounts df (df.getD i row2Default).asset_id))).getD
        (groupPos df i (df.getD i row2Default).asset_id) FV.nan := rfl
  have hcl := groupPos_lt_groupCounts df i hi
  have hlen : (rollingMeanMP ROLLING_WINDOW MIN_PERIODS
      (groupCounts df (df.getD i row2Default).asset_id)).length
      = (groupCounts df (df.getD i row2Default).asset_id).length :=
    rollingMeanMP_length _ _ _
  have hff : ffill (rollingMeanMP ROLLING_WINDOW MIN_PERIODS
      (groupCounts df (df.getD i row2Default).asset_id))
      = rollingMeanMP ROLLING_WINDOW MIN_PERIODS
          (groupCounts df (df.getD i row2Default).asset_id) :=
    ffillFrom_of_no_nan _ (rollingMeanMP_not_nan _) none
  have hpc := pctChange_getD _ ROLLING_WINDOW
    (groupPos df i (df.getD i row2Default).asset_id) (by rw [hlen]; exact hcl) hff
  simp only [ROLLING_WINDOW] at hpc hfield ⊢
  constructor
  · intro hlt
    rw [hfield, hpc, if_pos]
    · rfl
    · exact hlt
  · intro hge
    have h7 : groupPos df i (df.getD i row2Default).asset_id - 7
        < (groupCounts df (df.getD i row2Default).asset_id).length := by omega
    have hprev := rollingMeanMP_getD
      (groupCounts df (df.getD i row2Default).asset_id)
      (groupPos df i (df.getD i row2Default).asset_id - 7) h7
    have hcur := rollingMeanMP_getD
      (groupCounts df (df.getD i row2Default).asset_id)
      (groupPos df i (df.getD i row2Default).asset_id) hcl
    simp only [ROLLING_WINDOW] at hprev hcur
    refine ⟨_, _, hprev, hcur, ?_⟩
    rw [hfield, hpc, if_neg (by omega), hprev, hcur]
    set prev := listMean
      (((groupCounts df (df.getD i row2Default).asset_id).take
          (groupPos df i (df.getD i row2Default).asset_id - 7 + 1)).drop
        (groupPos df i (df.getD i row2Default).asset_id - 7 + 1 - 7))
      with hprevdef
    set cur := listMean
      (((groupCounts df (df.getD i row2Default).asset_id).take
          (groupPos df i (df.getD i row2Default).asset_id + 1)).drop
        (groupPos df i (df.getD i row2Default).asset_id + 1 - 7))
      with hcurdef
    by_cases hprev0 : prev = 0
    · rw [if_pos hprev0]
      rcases lt_trichotomy cur 0 with hc | hc | hc
      · simp [FV.div, FV.sub, replaceInfNan, hprev0, hc, ne_of_lt hc, not_lt.mpr (le_of_lt hc)]
      · simp [FV.div, FV.sub, replaceInfNan, hprev0, hc]
      · simp [FV.div, FV.sub, replaceInfNan, hprev0, ne_of_gt hc, hc]
    · rw [if_neg hprev0]
      have hdiv : FV.div (FV.fin cur) (FV.fin prev) = FV.fin (cur / prev) := by
        simp [FV.div, hprev0, qdiv_eq_div]
      rw [hdiv]
      have hsub : FV.sub (FV.fin (cur / prev)) (FV.fin 1) = FV.fin (cur / prev - 1) := by
        simp [FV.sub, qsub_eq_sub]
      rw [hsub, div_sub_one hprev0]
      rfl

/-- Witness for C8 at row 8 of `exDf`: position 8 ≥ 7, the previous
average is 1 and the current one 11/7, so the trend score is 4/7. -/
theorem trend_score_pct_change_witness :
    (8 < 7 → replaceInfNan ((calculate_metrics exDf).getD 8 mrDefault).trend_score = FV.nan) ∧
      (7 ≤ 8 → ∃ prev cur : ℚ,
        (rollingMeanMP ROLLING_WINDOW MIN_PERIODS
            (groupCounts exDf (exDf.getD 8 row2Default).asset_id)).getD (8 - 7) FV.nan
          = FV.fin prev ∧
          (rollingMeanMP ROLLING_WINDOW MIN_PERIODS
              (groupCounts exDf (exDf.getD 8 row2Default).asset_id)).getD 8 FV.nan
            = FV.fin cur ∧
          replaceInfNan ((calculate_metrics exDf).getD 8 mrDefault).trend_score
            = if prev = 0 then FV.nan else FV.fin ((cur - prev) / prev)) :=
  trend_score_pct_change exDf 8 (by decide) _ 8 rfl (by decide)

/-- A cell that survives the ∞ → NaN replacement without being NaN is
finite. -/
theorem replaceInfNan_fin_of_not_nan (y : FV) (h : (replaceInfNan y).isNan = false) :
    (replaceInfNan y).isFin = true := by
  cases y <;> simp [replaceInfNan, FV.isNan, FV.isFin] at *

/-- Membership in `clean_data`: every output row descends from an
∞-replaced input row that passed `dropna`, its momentum is the product
of its three scores, and it passed both positivity filters. -/
theorem mem_clean_data (rows : List MetricsRow) (r : CleanRow)
    (hr : r ∈ clean_data rows) :
    r.toMetricsRow ∈ rows.map replaceScores ∧
      keepRow r.toMetricsRow = true ∧
      r.momentum_score
        = FV.mul (FV.mul r.trend_score r.acceleration_score) r.price_score ∧
      r.momentum_score.pos = true ∧
      r.acceleration_score.pos = true := by
  unfold clean_data at hr
  rw [List.mem_insertionSort] at hr
  have h5 := List.mem_filter.mp hr
  have h4 := List.mem_filter.mp h5.1
  rcases List.mem_map.mp h4.1 with ⟨m, hm2, rfl⟩
  have h2 := List.mem_filter.mp hm2
  exact ⟨h2.1, h2.2, rfl, h4.2, h5.2⟩

/-- Every row `calculate_metrics` emits has a finite
`count_7d_avg` (min_periods = 1 and a non-null count column). -/
theorem calculate_metrics_avg_fin (df : List Row2) (m : MetricsRow)
    (hm : m ∈ calculate_metrics df) : m.count_7d_avg.isFin = true := by
  unfold calculate_metrics at hm
  rcases List.mem_map.mp hm with ⟨ir, hir, rfl⟩
  obtain ⟨i, x⟩ := ir
  obtain ⟨hilt, hx⟩ := List.mem_enum hir
  have hx2 : x = df.getD i row2Default := by
    rw [hx, List.getD_eq_getElem df row2Default hilt]
  subst hx2
  have hfield : (calcRow df i (df.getD i row2Default)).count_7d_avg
      = (rollingMeanMP ROLLING_WINDOW MIN_PERIODS
          (groupCounts df (df.getD i row2Default).asset_id)).getD
        (groupPos df i (df.getD i row2Default).asset_id) FV.nan := rfl
  rw [hfield, rollingMeanMP_getD _ _ (groupPos_lt_groupCounts df i hilt)]
  rfl

/-- C2: every row of the terminal table (after `calculate_metrics`
and `clean_data`) has a non-null close and finite — neither NaN nor
±infinite — count_7d_avg, trend_score, acceleration_score and
price_score; in particular a percent change over a zero previous value
(an infinity before replacement) never reaches the terminal table. -/
theorem terminal_rows_finite (df : List Row2) (r : CleanRow)
    (hr : r ∈ clean_data (calculate_metrics df)) :
    r.close.isSome = true ∧ r.count_7d_avg.isFin = true ∧
      r.trend_score.isFin = true ∧ r.acceleration_score.isFin = true ∧
      r.price_score.isFin = true := by
  obtain ⟨hmem, hkeep, _, _, _⟩ := mem_clean_data _ r hr
  rcases List.mem_map.mp hmem with ⟨m0, hm0, heq⟩
  unfold keepRow at hkeep
  simp only [Bool.and_eq_true, Bool.not_eq_true'] at hkeep
  obtain ⟨⟨⟨hclose, htr⟩, hac⟩, hpr⟩ := hkeep
  have htr2 : r.trend_score = replaceInfNan m0.trend_score := by
    rw [← heq]; rfl
  have hac2 : r.acceleration_score = replaceInfNan m0.acceleration_score := by
    rw [← heq]; rfl
  have hpr2 : r.price_score = replaceInfNan m0.price_score := by
    rw [← heq]; rfl
  have havg : r.count_7d_avg = m0.count_7d_avg := by
    rw [← heq]; rfl
  refine ⟨hclose, ?_, ?_, ?_, ?_⟩
  · rw [havg]
    exact calculate_metrics_avg_fin df m0 hm0
  · rw [htr2]
    exact replaceInfNan_fin_of_not_nan _ (by rw [← htr2]; exact htr)
  · rw [hac2]
    exact replaceInfNan_fin_of_not_nan _ (by rw [← hac2]; exact hac)
  · rw [hpr2]
    exact replaceInfNan_fin_of_not_nan _ (by rw [← hpr2]; exact hpr)

/-- Witness for C2: the surviving row of the example table has a
close of 9 and finite scores. -/
theorem terminal_rows_finite_witness :
    exCleanRow.close.isSome = true ∧ exCleanRow.count_7d_avg.isFin = true ∧
      exCleanRow.trend_score.isFin = true ∧
      exCleanRow.acceleration_score.isFin = true ∧
      exCleanRow.price_score.isFin = true :=
  terminal_rows_finite exDf exCleanRow (by decide)

/-- C9: on every terminal row, momentum_score equals
trend_score * acceleration_score * price_score, and the row passed the
two independent positivity filters momentum_score > 0 and
acceleration_score > 0 — so a row with positive momentum but
non-positive acceleration is excluded. -/
theorem momentum_product_filters (df : List Row2) (r : CleanRow)
    (hr : r ∈ clean_data (calculate_metrics df)) :
    r.momentum_score
        = FV.mul (FV.mul r.trend_score r.acceleration_score) r.price_score ∧
      r.momentum_score.pos = true ∧ r.acceleration_score.pos = true := by
  obtain ⟨_, _, h3, h4, h5⟩ := mem_clean_data _ r hr
  exact ⟨h3, h4, h5⟩

/-- Witness for C9: the surviving example row has momentum
6 = (4/7) * 3 * (7/2) > 0 and acceleration 3 > 0. -/
theorem momentum_product_filters_witness :
    exCleanRow.momentum_score
        = FV.mul (FV.mul exCleanRow.trend_score exCleanRow.acceleration_score)
            exCleanRow.price_score ∧
      exCleanRow.momentum_score.pos = true ∧
      exCleanRow.acceleration_score.pos = true :=
  momentum_product_filters exDf exCleanRow (by decide)

/-- The initial batch state satisfies the scheduler invariant. -/
theorem schedInv_init (N k : ℕ) : SchedInv N k (Sched.init N k) := by
  refine ⟨List.length_replicate k Phase.pending, ?_, ?_⟩
  · have h0 : (List.replicate k Phase.pending).countP Phase.holding = 0 :=
      List.countP_eq_zero.mpr (fun a ha => by
        rw [(List.mem_replicate.mp ha).2]
        simp [Phase.holding])
    simpa [Sched.init] using h0
  · intro ph hph
    rw [(List.mem_replicate.mp hph).2]
    trivial

/-- Every scheduler step preserves the invariant. -/
theorem schedStep_inv {N k : ℕ} {σ σ2 : Sched} (hs : SchedStep σ σ2)
    (hi : SchedInv N k σ) : SchedInv N k σ2 := by
  obtain ⟨hlen, hcount, hth⟩ := hi
  cases hs with
  | tick => exact ⟨hlen, hcount, hth⟩
  | acquire i h ha =>
      obtain ⟨hilt, helem⟩ := List.getElem?_eq_some.mp h
      refine ⟨by simpa [List.length_set] using hlen, ?_, ?_⟩
      · rw [List.countP_set _ _ _ _ hilt, helem]
        have e1 : (if Phase.holding Phase.pending = true then 1 else 0) = 0 := rfl
        have e2 : (if Phase.holding (Phase.sleeping σ.time) = true then 1 else 0) = 1 := rfl
        rw [e1, e2]
        show σ.tasks.countP Phase.holding - 0 + 1 + (σ.avail - 1) = N
        omega
      · intro ph hph
        rcases List.mem_or_eq_of_mem_set hph with hmem | rfl
        · exact hth ph hmem
        · trivial
  | issue i acq h hd =>
      obtain ⟨hilt, helem⟩ := List.getElem?_eq_some.mp h
      refine ⟨by simpa [List.length_set] using hlen, ?_, ?_⟩
      · have hpos : 0 < σ.tasks.countP Phase.holding :=
          List.countP_pos_iff.mpr ⟨σ.tasks[i], List.getElem_mem hilt, by
            rw [helem]; rfl⟩
        rw [List.countP_set _ _ _ _ hilt, helem]
        have e1 : (if Phase.holding (Phase.sleeping acq) = true then 1 else 0) = 1 := rfl
        have e2 : (if Phase.holding (Phase.requesting acq σ.time) = true then 1 else 0) = 1 := rfl
        rw [e1, e2]
        show σ.tasks.countP Phase.holding - 1 + 1 + σ.avail = N
        omega
      · intro ph hph
        rcases List.mem_or_eq_of_mem_set hph with hmem | rfl
        · exact hth ph hmem
        · exact hd
  | finish i acq req h =>
      obtain ⟨hilt, helem⟩ := List.getElem?_eq_some.mp h
      refine ⟨by simpa [List.length_set] using hlen, ?_, ?_⟩
      · have hpos : 0 < σ.tasks.countP Phase.holding :=
          List.countP_pos_iff.mpr ⟨σ.tasks[i], List.getElem_mem hilt, by
            rw [helem]; rfl⟩
        rw [List.countP_set _ _ _ _ hilt, helem]
        have e1 : (if Phase.holding (Phase.requesting acq req) = true then 1 else 0) = 1 := rfl
        have e2 : (if Phase.holding (Phase.done acq req) = true then 1 else 0) = 0 := rfl
        rw [e1, e2]
        show σ.tasks.countP Phase.holding - 1 + 0 + (σ.avail + 1) = N
        omega
      · intro ph hph
        rcases List.mem_or_eq_of_mem_set hph with hmem | rfl
        · exact hth ph hmem
        · have := hth (Phase.requesting acq req) (helem ▸ List.getElem_mem hilt)
          exact this

/-- The scheduler invariant holds in every reachable state. -/
theorem schedReach_inv (N k : ℕ) (σ : Sched) (h : SchedReach N k σ) :
    SchedInv N k σ := by
  induction h with
  | refl => exact schedInv_init N k
  | tail _ hstep ih => exact schedStep_inv hstep ih

/-- Reading the element just after a prefix. -/
theorem getElem?_append_cons {α : Type} (l1 : List α) (x : α) (l2 : List α) :
    (l1 ++ x :: l2)[l1.length]? = some x := by
  induction l1 with
  | nil => simp
  | cons a as ih => simpa [List.getElem?_cons_succ] using ih

/-- Setting the element just after a prefix. -/
theorem set_append_cons {α : Type} (l1 : List α) (x y : α) (l2 : List α) :
    (l1 ++ x :: l2).set l1.length y = l1 ++ y :: l2 := by
  induction l1 with
  | nil => rfl
  | cons a as ih => simpa using ih

/-- From any state with `m` pending tasks after a block of finished
ones and a full semaphore, the batch can run to completion: each task
in turn acquires, sleeps one tick, issues, and finishes. -/
theorem sched_complete (N : ℕ) (hN : 1 ≤ N) :
    ∀ (m t : ℕ) (ds : List Phase), (∀ ph ∈ ds, ph.isDone = true) →
      ∃ σf, Relation.ReflTransGen SchedStep
          ⟨t, ds ++ List.replicate m Phase.pending, N⟩ σf ∧
        σf.tasks.length = ds.length + m ∧ ∀ ph ∈ σf.tasks, ph.isDone = true := by
  intro m
  induction m with
  | zero =>
      intro t ds hds
      exact ⟨⟨t, ds ++ [], N⟩, .refl, by simp, by simpa using hds⟩
  | succ m ih =>
      intro t ds hds
      rw [List.replicate_succ]
      have s1 : SchedStep ⟨t, ds ++ Phase.pending :: List.replicate m Phase.pending, N⟩
          ⟨t, ds ++ Phase.sleeping t :: List.replicate m Phase.pending, N - 1⟩ := by
        have hstep := SchedStep.acquire
          ⟨t, ds ++ Phase.pending :: List.replicate m Phase.pending, N⟩ ds.length
          (getElem?_append_cons ds _ _) (by show 0 < N; omega)
        simpa [set_append_cons] using hstep
      have s2 : SchedStep
          ⟨t, ds ++ Phase.sleeping t :: List.replicate m Phase.pending, N - 1⟩
          ⟨t + 1, ds ++ Phase.sleeping t :: List.replicate m Phase.pending, N - 1⟩ :=
        SchedStep.tick _
      have s3 : SchedStep
          ⟨t + 1, ds ++ Phase.sleeping t :: List.replicate m Phase.pending, N - 1⟩
          ⟨t + 1, ds ++ Phase.requesting t (t + 1) :: List.replicate m Phase.pending,
            N - 1⟩ := by
        have hstep := SchedStep.issue
          ⟨t + 1, ds ++ Phase.sleeping t :: List.replicate m Phase.pending, N - 1⟩
          ds.length t (getElem?_append_cons ds _ _) (by show t + 1 ≤ t + 1; omega)
        simpa [set_append_cons] using hstep
      have s4 : SchedStep
          ⟨t + 1, ds ++ Phase.requesting t (t + 1) :: List.replicate m Phase.pending,
            N - 1⟩
          ⟨t + 1, ds ++ Phase.done t (t + 1) :: List.replicate m Phase.pending, N⟩ := by
        have hstep := SchedStep.finish
          ⟨t + 1, ds ++ Phase.requesting t (t + 1) :: List.replicate m Phase.pending,
            N - 1⟩
          ds.length t (t + 1) (getElem?_append_cons ds _ _)
        have hN1 : N - 1 + 1 = N := by omega
        simpa [set_append_cons, hN1] using hstep
      obtain ⟨σf, hreach, hlenf, hdonef⟩ := ih (t + 1) (ds ++ [Phase.done t (t + 1)])
        (by
          intro ph hph
          rcases List.mem_append.mp hph with h1 | h1
          · exact hds ph h1
          · simp only [List.mem_singleton] at h1
            rw [h1]
            rfl)
      have hassoc : (ds ++ [Phase.done t (t + 1)]) ++ List.replicate m Phase.pending
          = ds ++ Phase.done t (t + 1) :: List.replicate m Phase.pending := by
        simp
      rw [hassoc] at hreach
      refine ⟨σf, .head s1 (.head s2 (.head s3 (.head s4 hreach))), ?_, hdonef⟩
      rw [hlenf, List.length_append]
      simp
      omega

/-- C10: for every semaphore size N ≥ 1 and batch of k fetch tasks,
in every reachable state of the batch at most N tasks hold a
semaphore slot (at most N requests in flight simultaneously) and every
issued request was issued at least one time unit after its task
acquired its slot (`asyncio.sleep(1)` after `async with sem`); and the
batch can execute all k descriptors to completion. -/
theorem fetcher_concurrency (N k : ℕ) (hN : 1 ≤ N) :
    (∀ σ, SchedReach N k σ →
        σ.tasks.countP Phase.holding ≤ N ∧ ∀ ph ∈ σ.tasks, ph.throttled) ∧
      ∃ σf, SchedReach N k σf ∧ σf.tasks.length = k ∧
        ∀ ph ∈ σf.tasks, ph.isDone = true := by
  constructor
  · intro σ hσ
    obtain ⟨_, hcount, hth⟩ := schedReach_inv N k σ hσ
    exact ⟨by omega, hth⟩
  · obtain ⟨σf, hr, hlenf, hdonef⟩ := sched_complete N hN k 0 [] (by simp)
    refine ⟨σf, ?_, by simpa using hlenf, hdonef⟩
    simpa [SchedReach, Sched.init] using hr

/-- Witness for C10 at N = 1, k = 1. -/
theorem fetcher_concurrency_witness :
    (∀ σ, SchedReach 1 1 σ →
        σ.tasks.countP Phase.holding ≤ 1 ∧ ∀ ph ∈ σ.tasks, ph.throttled) ∧
      ∃ σf, SchedReach 1 1 σf ∧ σf.tasks.length = 1 ∧
        ∀ ph ∈ σf.tasks, ph.isDone = true :=
  fetcher_concurrency 1 1 (by decide)

end Algotrade
